import Mathlib

/-!
Verification of the Kakarot RPC adapter core (`src/core/src/client/mod.rs`).

The development shallowly embeds the client module: field elements are
integers modulo the Stark prime, remote Starknet-node calls are an oracle
record of explicit functions, and every fallible operation returns
`Except KakarotClientError`.  Definitions follow the Rust source
function-by-function; helpers that live in modules absent from the
provided sources (`crate::helpers`, `crate::client::constants`,
`crate::client::types`) are modelled from the specification and say so in
their doc comments.
-/

set_option maxRecDepth 4000

/-! ## Numeric codec: big-endian bytes, hex and decimal digit strings -/

/-- The Stark field prime, the modulus of `starknet::core::types::FieldElement`. -/
def STARK_PRIME : Nat := 2 ^ 251 + 17 * 2 ^ 192 + 1

theorem STARK_PRIME_pos : 0 < STARK_PRIME := by decide

instance : NeZero STARK_PRIME := ⟨by decide⟩

/-- A Starknet field element: an integer modulo the Stark prime. -/
abbrev FieldElement := Fin STARK_PRIME

/-- Value of a big-endian byte string (`U256::from_be_bytes` and friends). -/
def beNat (bs : List Nat) : Nat := bs.foldl (fun acc b => acc * 256 + b) 0

/-- The `w`-byte big-endian representation of `n` (`FieldElement::to_bytes_be`
serializes with `w = 32`). -/
def natToBytesBE (w n : Nat) : List Nat :=
  (List.range w).map (fun i => n / 256 ^ (w - 1 - i) % 256)

theorem beNat_aux (bs : List Nat) (a : Nat) :
    bs.foldl (fun acc b => acc * 256 + b) a = a * 256 ^ bs.length + beNat bs := by
  induction bs generalizing a with
  | nil => simp [beNat]
  | cons b t ih =>
    simp only [List.foldl_cons, List.length_cons]
    rw [ih (a * 256 + b)]
    have hcons : beNat (b :: t) = b * 256 ^ t.length + beNat t := by
      have h0 := ih (0 * 256 + b)
      simpa [beNat] using h0
    rw [hcons]
    ring

theorem beNat_cons (b : Nat) (t : List Nat) :
    beNat (b :: t) = b * 256 ^ t.length + beNat t := by
  simpa [beNat] using beNat_aux t b

theorem beNat_append (xs ys : List Nat) :
    beNat (xs ++ ys) = beNat xs * 256 ^ ys.length + beNat ys := by
  simp only [beNat, List.foldl_append]
  rw [beNat_aux ys (xs.foldl (fun acc b => acc * 256 + b) 0)]
  rfl

theorem beNat_lt_pow (bs : List Nat) (h : ∀ b ∈ bs, b < 256) :
    beNat bs < 256 ^ bs.length := by
  induction bs with
  | nil => simp [beNat]
  | cons b t ih =>
    rw [beNat_cons]
    have hb : b < 256 := h b (by simp)
    have ht : beNat t < 256 ^ t.length := ih (fun x hx => h x (by simp [hx]))
    have : (b + 1) * 256 ^ t.length ≤ 256 ^ (t.length + 1) := by
      have : b + 1 ≤ 256 := hb
      calc (b + 1) * 256 ^ t.length ≤ 256 * 256 ^ t.length :=
            Nat.mul_le_mul_right _ this
        _ = 256 ^ (t.length + 1) := by ring
    calc b * 256 ^ t.length + beNat t < b * 256 ^ t.length + 256 ^ t.length :=
          Nat.add_lt_add_left ht _
      _ = (b + 1) * 256 ^ t.length := by ring
      _ ≤ 256 ^ (t.length + 1) := this
      _ = 256 ^ (b :: t).length := by simp

theorem beNat_replicate_zero (k : Nat) : beNat (List.replicate k 0) = 0 := by
  induction k with
  | zero => rfl
  | succ n ih => rw [List.replicate_succ, beNat_cons, ih]; simp

theorem natToBytesBE_length (w n : Nat) : (natToBytesBE w n).length = w := by
  simp [natToBytesBE]

theorem natToBytesBE_getElem (w n i : Nat) (h1 : i < (natToBytesBE w n).length) :
    (natToBytesBE w n)[i] = n / 256 ^ (w - 1 - i) % 256 := by
  simp [natToBytesBE]

/-- Round trip: serializing the value of a valid byte string recovers it. -/
theorem natToBytesBE_beNat (bs : List Nat) (w : Nat) (hw : bs.length = w)
    (hb : ∀ b ∈ bs, b < 256) : natToBytesBE w (beNat bs) = bs := by
  apply List.ext_getElem (by simp [natToBytesBE_length, hw])
  intro i h1 h2
  have hiw : i < w := by simpa [natToBytesBE_length] using h1
  rw [natToBytesBE_getElem w (beNat bs) i h1]
  -- decompose bs around index i
  have hsplit : bs.take (i + 1) ++ bs.drop (i + 1) = bs := List.take_append_drop _ _
  have hlen_take : (bs.take (i + 1)).length = i + 1 := by
    simp [List.length_take]; omega
  have hlen_drop : (bs.drop (i + 1)).length = w - 1 - i := by
    simp [List.length_drop, hw]; omega
  have hdecomp : beNat bs =
      beNat (bs.take (i + 1)) * 256 ^ (w - 1 - i) + beNat (bs.drop (i + 1)) := by
    conv_lhs => rw [← hsplit]
    rw [beNat_append, hlen_drop]
  have hdrop_lt : beNat (bs.drop (i + 1)) < 256 ^ (w - 1 - i) := by
    have := beNat_lt_pow (bs.drop (i + 1))
      (fun b hbmem => hb b (List.drop_subset _ _ hbmem))
    rwa [hlen_drop] at this
  have hpow_pos : 0 < 256 ^ (w - 1 - i) := Nat.pos_pow_of_pos _ (by norm_num)
  have hdiv : beNat bs / 256 ^ (w - 1 - i) = beNat (bs.take (i + 1)) := by
    rw [hdecomp, Nat.add_comm, Nat.add_mul_div_right _ _ hpow_pos,
      Nat.div_eq_of_lt hdrop_lt, Nat.zero_add]
  rw [hdiv]
  -- the last byte of the (i+1)-prefix is bs[i]
  have htake_succ : bs.take (i + 1) = bs.take i ++ [bs[i]] := by
    rw [List.take_succ]
    congr 1
    simp [List.get?_eq_getElem?, List.getElem?_eq_getElem h2]
  rw [htake_succ, beNat_append]
  have hsingle : beNat [bs[i]] = bs[i] := by simp [beNat]
  rw [hsingle]
  simp only [List.length_singleton, pow_one]
  rw [Nat.mul_comm, Nat.mul_add_mod]
  exact Nat.mod_eq_of_lt (hb _ (List.getElem_mem _))

theorem beNat_pad (k : Nat) (a : List Nat) :
    beNat (List.replicate k 0 ++ a) = beNat a := by
  rw [beNat_append, beNat_replicate_zero]; simp

/-- Serialization of a 20-byte value into 32 bytes is 12 zero bytes followed
by the original bytes. -/
theorem natToBytesBE32_of_20 (a : List Nat) (h20 : a.length = 20)
    (hb : ∀ b ∈ a, b < 256) :
    natToBytesBE 32 (beNat a) = List.replicate 12 0 ++ a := by
  have hlen : (List.replicate 12 0 ++ a).length = 32 := by simp [h20]
  have hball : ∀ b ∈ List.replicate 12 0 ++ a, b < 256 := by
    intro b hbmem
    rcases List.mem_append.mp hbmem with hmem | hmem
    · have := List.eq_of_mem_replicate hmem; omega
    · exact hb b hmem
  rw [← beNat_pad 12 a]
  exact natToBytesBE_beNat _ 32 hlen hball

/-! ## Hex encoding (`hex::encode` + `FieldElement::from_hex_be`) -/

/-- Character for one digit value 0..15, as `hex::encode` emits (lowercase). -/
def digitChar (d : Nat) : Char :=
  if d < 10 then Char.ofNat (48 + d)
  else if d < 16 then Char.ofNat (87 + d)
  else '?'

/-- Value of one hex character, as `FieldElement::from_hex_be` reads digits
(both letter cases accepted). -/
def hexCharVal (c : Char) : Option Nat :=
  if 48 ≤ c.toNat ∧ c.toNat ≤ 57 then some (c.toNat - 48)
  else if 97 ≤ c.toNat ∧ c.toNat ≤ 102 then some (c.toNat - 87)
  else if 65 ≤ c.toNat ∧ c.toNat ≤ 70 then some (c.toNat - 55)
  else none

/-- Two lowercase hex characters of one byte, as `hex::encode` emits them. -/
def byteToHexChars (b : Nat) : List Char := [digitChar (b / 16), digitChar (b % 16)]

/-- Hex encoding of a byte string (`hex::encode`): two characters per byte,
most significant first. -/
def hexEncode (bs : List Nat) : List Char := bs.flatMap byteToHexChars

/-- Big-endian hex-digit parse, `none` on any non-hex character. -/
def parseHexDigits (cs : List Char) : Option Nat :=
  cs.foldl
    (fun acc c =>
      match acc, hexCharVal c with
      | some a, some d => some (a * 16 + d)
      | _, _ => none)
    (some 0)

theorem hexCharVal_digitChar (d : Nat) (h : d < 16) :
    hexCharVal (digitChar d) = some d := by
  interval_cases d <;> rfl

theorem parseHexDigits_aux (bs : List Nat) (hb : ∀ b ∈ bs, b < 256) (a : Nat) :
    (hexEncode bs).foldl
        (fun acc c =>
          match acc, hexCharVal c with
          | some a, some d => some (a * 16 + d)
          | _, _ => none)
        (some a) = some (a * 256 ^ bs.length + beNat bs) := by
  induction bs generalizing a with
  | nil => simp [hexEncode, beNat]
  | cons b t ih =>
    have hblt : b < 256 := hb b (by simp)
    have hhi : b / 16 < 16 := by omega
    have hlo : b % 16 < 16 := by omega
    have hstep : ((a * 16 + b / 16) * 16 + b % 16) = a * 256 + b := by
      have := Nat.div_add_mod b 16
      ring_nf
      omega
    simp only [hexEncode, List.flatMap_cons, List.foldl_append, byteToHexChars,
      List.foldl_cons, List.foldl_nil, hexCharVal_digitChar _ hhi,
      hexCharVal_digitChar _ hlo]
    rw [hstep]
    have ht := ih (fun x hx => hb x (by simp [hx])) (a * 256 + b)
    simp only [hexEncode] at ht
    rw [ht, beNat_cons]
    congr 1
    simp only [List.length_cons]
    ring

/-- Parsing the hex encoding of a byte string recovers its big-endian value. -/
theorem parseHexDigits_hexEncode (bs : List Nat) (hb : ∀ b ∈ bs, b < 256) :
    parseHexDigits (hexEncode bs) = some (beNat bs) := by
  have := parseHexDigits_aux bs hb 0
  simpa [parseHexDigits] using this

/-! ## Decimal strings (`FieldElement::to_string` + `str::parse::<u8>`) -/

/-- Decimal digit characters of `n`, most significant first, with `0` printed
as `"0"` — the `Display` form of a `FieldElement` value. -/
def decimalChars (n : Nat) : List Char :=
  if n = 0 then ['0'] else (Nat.digits 10 n).reverse.map digitChar

/-- Value of one decimal character, as `str::parse::<u8>` reads digits. -/
def decCharVal (c : Char) : Option Nat :=
  if 48 ≤ c.toNat ∧ c.toNat ≤ 57 then some (c.toNat - 48) else none

/-- Rust's `str::parse::<u8>` on a digit string: empty input fails, any
non-digit fails, and any intermediate value above 255 is an overflow
failure. -/
def parseU8 (cs : List Char) : Option Nat :=
  if cs = [] then none
  else
    cs.foldl
      (fun acc c =>
        match acc, decCharVal c with
        | some a, some d => if a * 10 + d ≤ 255 then some (a * 10 + d) else none
        | _, _ => none)
      (some 0)

theorem decCharVal_digitChar (d : Nat) (h : d < 10) :
    decCharVal (digitChar d) = some d := by
  interval_cases d <;> rfl

theorem decimalChars_ne_nil (n : Nat) : decimalChars n ≠ [] := by
  unfold decimalChars
  split
  · simp
  · rename_i hn
    have : Nat.digits 10 n ≠ [] := Nat.digits_ne_nil_iff_ne_zero.mpr hn
    simp [this]

theorem parseU8_foldl_decimal (n : Nat) :
    (decimalChars n).foldl
        (fun acc c =>
          match acc, decCharVal c with
          | some a, some d => if a * 10 + d ≤ 255 then some (a * 10 + d) else none
          | _, _ => none)
        (some 0) = (if n ≤ 255 then some n else none) := by
  induction n using Nat.strong_induction_on with
  | _ n ih =>
    by_cases h0 : n = 0
    · subst h0
      rfl
    · by_cases hsmall : n < 10
      · have hdig : Nat.digits 10 n = [n] := by
          rw [Nat.digits_def' (by norm_num : 1 < 10) (Nat.pos_of_ne_zero h0)]
          rw [Nat.mod_eq_of_lt hsmall, Nat.div_eq_of_lt hsmall]
          simp
        have h255 : n ≤ 255 := by omega
        simp [decimalChars, h0, hdig, decCharVal_digitChar n hsmall, h255]
      · -- n ≥ 10 : peel off the last digit
        have h10 : (10 : Nat) ≤ n := by omega
        have hdig : Nat.digits 10 n = n % 10 :: Nat.digits 10 (n / 10) := by
          exact Nat.digits_def' (by norm_num) (by omega)
        have hdivpos : n / 10 ≠ 0 := by
          intro hz
          have := Nat.div_add_mod n 10
          omega
        have hstep : decimalChars n =
            decimalChars (n / 10) ++ [digitChar (n % 10)] := by
          simp [decimalChars, h0, hdivpos, hdig]
        rw [hstep, List.foldl_append]
        rw [ih (n / 10) (Nat.div_lt_self (by omega) (by norm_num))]
        by_cases hq : n / 10 ≤ 255
        · have hmod : n % 10 < 10 := Nat.mod_lt _ (by norm_num)
          simp only [hq, if_true, List.foldl_cons, List.foldl_nil,
            decCharVal_digitChar _ hmod]
          have heq : n / 10 * 10 + n % 10 = n := by
            have := Nat.div_add_mod n 10
            omega
          rw [heq]
        · have hbig : ¬ n ≤ 255 := by
            intro hle
            exact hq (le_trans (Nat.div_le_self _ _) hle)
          simp [hq, hbig]

/-- Rust's `u8` parse of the decimal display of `n` succeeds exactly when
`n` fits in a byte, returning `n` itself. -/
theorem parseU8_decimalChars (n : Nat) :
    parseU8 (decimalChars n) = (if n ≤ 255 then some n else none) := by
  unfold parseU8
  rw [if_neg (decimalChars_ne_nil n)]
  exact parseU8_foldl_decimal n

/-! ## Error type, constants, and model types -/

/-- `KakarotClientError` (src lines 57-63): remote transport failure or local
decoding/validation failure.  Payloads are kept as their display messages. -/
inductive KakarotClientError where
  | RequestError (msg : String)
  | OtherError (msg : String)
deriving DecidableEq

/-- A 20-byte Ethereum address (`reth_primitives::Address`), as its bytes. -/
abbrev EthAddress := List Nat

/-- A 32-byte hash (`H256`), as its bytes. -/
abbrev Hash256 := List Nat

/-- `BlockTag` of the Starknet provider model. -/
inductive BlockTag where
  | Latest
  | Pending
deriving DecidableEq

/-- `StarknetBlockId`: by hash, by number, or by tag. -/
inductive StarknetBlockId where
  | Hash (h : FieldElement)
  | Number (n : Nat)
  | Tag (t : BlockTag)
deriving DecidableEq

/-- Build a field element from a natural number, reducing modulo the prime
(used only for constants and in-range conversions). -/
def feltOfNat (n : Nat) : FieldElement := ⟨n % STARK_PRIME, Nat.mod_lt _ STARK_PRIME_pos⟩

/-- `FieldElement::to_bytes_be`: the canonical 32-byte big-endian serialization. -/
def to_bytes_be (x : FieldElement) : List Nat := natToBytesBE 32 x.val

/-- Modelled from the spec: `crate::client::constants::CHAIN_ID` is not under
`src/` (§6: the process-wide configured chain id constant). -/
def CHAIN_ID : Nat := 1263227476

/-- Modelled from the spec: `crate::client::constants::KAKAROT_MAIN_CONTRACT_ADDRESS`
is not under `src/` (§6: the Kakarot system contract's Starknet address).  The
concrete residue is a stand-in; no claim depends on its numeric value, only on
it being a fixed constant distinct from the account class hash. -/
def KAKAROT_MAIN_CONTRACT_ADDRESS : FieldElement :=
  feltOfNat 0x31ddf73d0285cc2f08bd4a2c93229f595f2f6e64b25846fc0957a2faa7ef7bb

/-- Modelled from the spec: `crate::client::constants::KAKAROT_CONTRACT_ACCOUNT_CLASS_HASH`
is not under `src/` (§6: the Kakarot account contract's class hash).  Concrete
residue is a stand-in, distinct from the main contract address. -/
def KAKAROT_CONTRACT_ACCOUNT_CLASS_HASH : FieldElement :=
  feltOfNat 0x52612b8a9fcbfeef210f8c3f8de11134af45a14d21a4e6f0da4a42a7f1bb822

/-- Modelled from the spec: the fixed entry-point selectors of §6 are process-wide
constants from `crate::client::constants::selectors`, not under `src/`. -/
def COMPUTE_STARKNET_ADDRESS : FieldElement :=
  feltOfNat 0xde0b0ab9fca9aac7e9e0b1a1fdac37d49ba8643f1c92b223f8dbba087659179

/-- Modelled from the spec: selector constant, see `COMPUTE_STARKNET_ADDRESS`. -/
def GET_EVM_ADDRESS : FieldElement :=
  feltOfNat 0x1e60c8ea1e5b4dde49733eacbbe24b20e447c3f17179a174fd51426ec414428

/-- Modelled from the spec: selector constant, see `COMPUTE_STARKNET_ADDRESS`. -/
def BYTECODE : FieldElement :=
  feltOfNat 0x2f04d63fa0a4992d32a8a6e7ab152a941ee35ee8a4b2f3b28aaf8d44b9095ba

/-- Modelled from the spec: selector constant, see `COMPUTE_STARKNET_ADDRESS`. -/
def EXECUTE_AT_ADDRESS : FieldElement :=
  feltOfNat 0x175056443cc24e7af22b8200d5f3e31a2c8e0a44025bb9f02ea6bbafbe49d63

/-- `FunctionCall` of the Starknet provider model: target contract,
entry-point selector, ordered calldata. -/
structure FunctionCall where
  contract_address : FieldElement
  entry_point_selector : FieldElement
  calldata : List FieldElement
deriving DecidableEq

/-- `FeltOrFeltArray` (from `crate::helpers`): one decoded segment of an
`execute_at_address` result — a scalar or an array (spec §4.2). -/
inductive FeltOrFeltArray where
  | Felt (f : FieldElement)
  | FeltArray (l : List FieldElement)
deriving DecidableEq

/-! ## Starknet transaction, receipt, and block model types

These mirror the fields of the `starknet::providers::jsonrpc::models` types the
client module reads; the transport is out of scope (spec §1/§6) so the types
are taken at their interface. -/

/-- `InvokeTransactionV0` of the provider model. -/
structure InvokeTransactionV0 where
  transaction_hash : FieldElement
  max_fee : FieldElement
  signature : List FieldElement
  nonce : FieldElement
  contract_address : FieldElement
  entry_point_selector : FieldElement
  calldata : List FieldElement
deriving DecidableEq

/-- `InvokeTransactionV1` of the provider model. -/
structure InvokeTransactionV1 where
  transaction_hash : FieldElement
  max_fee : FieldElement
  signature : List FieldElement
  nonce : FieldElement
  sender_address : FieldElement
  calldata : List FieldElement
deriving DecidableEq

/-- `InvokeTransaction`: version 0 or version 1. -/
inductive InvokeTransaction where
  | V0 (tx : InvokeTransactionV0)
  | V1 (tx : InvokeTransactionV1)
deriving DecidableEq

/-- `L1HandlerTransaction` of the provider model: unsigned, `u64` nonce. -/
structure L1HandlerTransaction where
  transaction_hash : FieldElement
  version : Nat
  nonce : Nat
  contract_address : FieldElement
  entry_point_selector : FieldElement
  calldata : List FieldElement
deriving DecidableEq

/-- `DeclareTransaction` of the provider model. -/
structure DeclareTransaction where
  transaction_hash : FieldElement
  max_fee : FieldElement
  signature : List FieldElement
  nonce : FieldElement
  class_hash : FieldElement
  sender_address : FieldElement
deriving DecidableEq

/-- `DeployTransaction` of the provider model: carries its class hash inline
and no signature field. -/
structure DeployTransaction where
  transaction_hash : FieldElement
  class_hash : FieldElement
  version : Nat
  contract_address_salt : FieldElement
  constructor_calldata : List FieldElement
deriving DecidableEq

/-- `DeployAccountTransaction` of the provider model: class hash inline,
signed. -/
structure DeployAccountTransaction where
  transaction_hash : FieldElement
  max_fee : FieldElement
  signature : List FieldElement
  nonce : FieldElement
  class_hash : FieldElement
  contract_address_salt : FieldElement
  constructor_calldata : List FieldElement
deriving DecidableEq

/-- `Transaction` of the provider model: the six Starknet transaction kinds. -/
inductive StarknetTransaction where
  | Invoke (tx : InvokeTransaction)
  | L1Handler (tx : L1HandlerTransaction)
  | Declare (tx : DeclareTransaction)
  | Deploy (tx : DeployTransaction)
  | DeployAccount (tx : DeployAccountTransaction)
deriving DecidableEq

/-- `TransactionStatus` of the provider model. -/
inductive StarknetTransactionStatus where
  | Pending
  | AcceptedOnL1
  | AcceptedOnL2
  | Rejected
deriving DecidableEq

/-- `InvokeTransactionReceipt` of the provider model (fields the client reads). -/
structure InvokeTransactionReceipt where
  transaction_hash : FieldElement
  actual_fee : FieldElement
  status : StarknetTransactionStatus
  block_hash : FieldElement
  block_number : Nat
deriving DecidableEq

/-- `DeployTransactionReceipt` of the provider model (fields the client reads). -/
structure DeployTransactionReceipt where
  transaction_hash : FieldElement
  actual_fee : FieldElement
  status : StarknetTransactionStatus
  block_hash : FieldElement
  block_number : Nat
  contract_address : FieldElement
deriving DecidableEq

/-- `DeployAccountTransactionReceipt` of the provider model (fields the client
reads). -/
structure DeployAccountTransactionReceipt where
  transaction_hash : FieldElement
  actual_fee : FieldElement
  status : StarknetTransactionStatus
  block_hash : FieldElement
  block_number : Nat
  contract_address : FieldElement
deriving DecidableEq

/-- `L1HandlerTransactionReceipt` of the provider model (opaque to the client:
such receipts are rejected before their fields are read). -/
structure L1HandlerTransactionReceipt where
  transaction_hash : FieldElement
  status : StarknetTransactionStatus
  block_hash : FieldElement
  block_number : Nat
deriving DecidableEq

/-- `DeclareTransactionReceipt` of the provider model (opaque to the client). -/
structure DeclareTransactionReceipt where
  transaction_hash : FieldElement
  status : StarknetTransactionStatus
  block_hash : FieldElement
  block_number : Nat
deriving DecidableEq

/-- `TransactionReceipt` of the provider model: five receipt kinds. -/
inductive StarknetTransactionReceipt where
  | Invoke (r : InvokeTransactionReceipt)
  | L1Handler (r : L1HandlerTransactionReceipt)
  | Declare (r : DeclareTransactionReceipt)
  | Deploy (r : DeployTransactionReceipt)
  | DeployAccount (r : DeployAccountTransactionReceipt)
deriving DecidableEq

/-- `MaybePendingTransactionReceipt` of the provider model.  The payload of a
pending receipt is never read by the client, so it is not modelled. -/
inductive MaybePendingTransactionReceipt where
  | Receipt (r : StarknetTransactionReceipt)
  | PendingReceipt
deriving DecidableEq

/-- `PendingBlockWithTxHashes` of the provider model (fields the client reads). -/
structure PendingBlockWithTxHashes where
  parent_hash : FieldElement
  sequencer_address : FieldElement
  timestamp : Nat
  transactions : List FieldElement
deriving DecidableEq

/-- `BlockWithTxHashes` of the provider model (fields the client reads). -/
structure BlockWithTxHashes where
  block_hash : FieldElement
  parent_hash : FieldElement
  sequencer_address : FieldElement
  new_root : FieldElement
  block_number : Nat
  timestamp : Nat
  transactions : List FieldElement
deriving DecidableEq

/-- `MaybePendingBlockWithTxHashes` of the provider model. -/
inductive MaybePendingBlockWithTxHashes where
  | Block (b : BlockWithTxHashes)
  | PendingBlock (b : PendingBlockWithTxHashes)
deriving DecidableEq

/-- `PendingBlockWithTxs` of the provider model (fields the client reads). -/
structure PendingBlockWithTxs where
  parent_hash : FieldElement
  sequencer_address : FieldElement
  timestamp : Nat
  transactions : List StarknetTransaction
deriving DecidableEq

/-- `BlockWithTxs` of the provider model (fields the client reads). -/
structure BlockWithTxs where
  block_hash : FieldElement
  parent_hash : FieldElement
  sequencer_address : FieldElement
  new_root : FieldElement
  block_number : Nat
  timestamp : Nat
  transactions : List StarknetTransaction
deriving DecidableEq

/-- `MaybePendingBlockWithTxs` of the provider model. -/
inductive MaybePendingBlockWithTxs where
  | Block (b : BlockWithTxs)
  | PendingBlock (b : PendingBlockWithTxs)
deriving DecidableEq

/-- `MaybePendingStarknetBlock` (from `crate::helpers`): hash-only or
full-transaction block, wrapping the two provider block unions. -/
inductive MaybePendingStarknetBlock where
  | BlockWithTxHashes (b : MaybePendingBlockWithTxHashes)
  | BlockWithTxs (b : MaybePendingBlockWithTxs)
deriving DecidableEq

/-! ## Ethereum-side records (`crate::client::types`, `reth_rpc_types`) -/

/-- Modelled from the spec: `crate::client::types::Transaction` is not under
`src/`.  The canonical Ethereum-shaped transaction of §3, with exactly the
fields the client module assigns; `U256` values are naturals, addresses and
hashes are byte strings. -/
structure EtherTransaction where
  hash : Hash256
  nonce : Nat
  block_hash : Option Hash256
  block_number : Option Nat
  from_ : EthAddress
  to_ : Option EthAddress
  value : Nat
  gas_price : Option Nat
  gas : Nat
  input : List Nat
  r : Nat
  s : Nat
  v : Nat
  standard_v : Nat
  chain_id : Option Nat
  creates : Option EthAddress
  public_key : Option (List Nat)
  access_list : Option (List Nat)
  transaction_type : Option Nat
deriving DecidableEq

/-- `Transaction::default()`: every field zero-valued or absent. -/
def defaultEtherTransaction : EtherTransaction where
  hash := List.replicate 32 0
  nonce := 0
  block_hash := none
  block_number := none
  from_ := List.replicate 20 0
  to_ := none
  value := 0
  gas_price := none
  gas := 0
  input := []
  r := 0
  s := 0
  v := 0
  standard_v := 0
  chain_id := none
  creates := none
  public_key := none
  access_list := none
  transaction_type := none

/-- `reth_rpc_types::TransactionReceipt`, restricted to the fields the client
module assigns (spec §3 CanonicalReceipt). -/
structure EthTransactionReceipt where
  transaction_hash : Option Hash256
  block_hash : Option Hash256
  block_number : Option Nat
  status_code : Option Nat
  contract_address : Option EthAddress
  from_ : EthAddress
  to_ : Option EthAddress
deriving DecidableEq

/-- Modelled from the spec: `crate::helpers::create_default_transaction_receipt`
is not under `src/`.  A receipt with every field absent or zero-valued, filled
in field by field by `get_transaction_receipt`. -/
def create_default_transaction_receipt : EthTransactionReceipt where
  transaction_hash := none
  block_hash := none
  block_number := none
  status_code := none
  contract_address := none
  from_ := List.replicate 20 0
  to_ := none

/-- `BlockTransactions` of `crate::client::types`: hash-only or hydrated body. -/
inductive BlockTransactions where
  | Hashes (hs : List Hash256)
  | Full (txs : List EtherTransaction)
deriving DecidableEq

/-- Modelled from the spec: `crate::client::types::Header` is not under `src/`.
The canonical block header of §3/§4.5 with exactly the fields the client
module assigns. -/
structure Header where
  hash : Option Hash256
  parent_hash : Hash256
  uncles_hash : Hash256
  author : EthAddress
  miner : EthAddress
  state_root : Hash256
  transactions_root : Hash256
  receipts_root : Hash256
  number : Option Nat
  gas_used : Nat
  gas_limit : Nat
  extra_data : List Nat
  logs_bloom : List Nat
  timestamp : Nat
  difficulty : Nat
  nonce : Option (List Nat)
  size : Option Nat
  base_fee_per_gas : Nat
  mix_hash : Hash256
deriving DecidableEq

/-- Modelled from the spec: `crate::client::types::Block` is not under `src/`.
Canonical block body of §3. -/
structure Block where
  header : Header
  total_difficulty : Nat
  uncles : List Hash256
  transactions : BlockTransactions
  base_fee_per_gas : Option Nat
  size : Option Nat
deriving DecidableEq

/-- `Rich<Block>`: the block plus an extra-info map that the client always
leaves empty (`BTreeMap::default()`), so only the inner block is modelled. -/
structure RichBlock where
  inner : Block
deriving DecidableEq

/-! ## The remote node as an oracle -/

/-- The remote Starknet node (`JsonRpcClient<HttpTransport>`), taken at its
interface (spec §6): each remote operation the client module issues is an
explicit function from the request to a response or a transport error. -/
structure Node where
  call : FunctionCall → StarknetBlockId → Except KakarotClientError (List FieldElement)
  get_class_hash_at : StarknetBlockId → FieldElement → Except KakarotClientError FieldElement
  get_transaction_receipt_r : FieldElement → Except KakarotClientError MaybePendingTransactionReceipt
  get_transaction_by_hash : FieldElement → Except KakarotClientError StarknetTransaction
  get_block_with_txs : StarknetBlockId → Except KakarotClientError MaybePendingBlockWithTxs
  get_block_with_tx_hashes : StarknetBlockId → Except KakarotClientError MaybePendingBlockWithTxHashes

/-! ## Field/Address codec functions -/

/-- Rust's `slice::get(i..j)`: `some` of the sub-slice when the range is in
bounds, `none` otherwise. -/
def sliceGet (l : List Nat) (i j : Nat) : Option (List Nat) :=
  if i ≤ j ∧ j ≤ l.length then some ((l.drop i).take (j - i)) else none

/-- The source's Ethereum-address → field-element conversion (src lines
263-270, 309-316, 517-524): `hex::encode` the 20 bytes, parse with
`FieldElement::from_hex_be`, wrap failure as `OtherError`. -/
def address_to_field_element (ethereum_address : EthAddress) :
    Except KakarotClientError FieldElement :=
  match parseHexDigits (hexEncode ethereum_address) with
  | none =>
    .error (.OtherError "Kakarot Core: Failed to convert Ethereum address to FieldElement")
  | some n =>
    if h : n < STARK_PRIME then .ok ⟨n, h⟩
    else
      .error (.OtherError "Kakarot Core: Failed to convert Ethereum address to FieldElement")

/-- The source's field-element → Ethereum-address conversion, inlined in
`get_evm_address` (src lines 695-707): serialize to 32 big-endian bytes and
take bytes 12..32, failing defensively when the slice cannot be formed. -/
def field_element_to_address (f : FieldElement) :
    Except KakarotClientError EthAddress :=
  match sliceGet (to_bytes_be f) 12 32 with
  | none =>
    .error (.OtherError "Kakarot Core: Failed to cast EVM address from 32 bytes to 20 bytes EVM format")
  | some s => .ok s

/-- Modelled from the spec: `crate::helpers::starknet_address_to_ethereum_address`
is not under `src/`.  Spec §3/§4.3: truncate the Starknet address's 32-byte
big-endian representation to the low 20 bytes. -/
def starknet_address_to_ethereum_address (starknet_address : FieldElement) : EthAddress :=
  (to_bytes_be starknet_address).drop 12

/-- Modelled from the spec: `crate::helpers::felt_to_u256` is not under `src/`.
The numeric value of the field element (every residue fits in a `U256`). -/
def felt_to_u256 (x : FieldElement) : Nat := x.val

/-- Modelled from the spec: `crate::helpers::felt_option_to_u256` is not under
`src/`.  Spec §4.4 step 1: r, s, v come from `signature[0..3]` and missing
slots are an error, not zero-fill. -/
def felt_option_to_u256 : Option FieldElement → Except KakarotClientError Nat
  | some x => .ok (felt_to_u256 x)
  | none => .error (.OtherError "Kakarot Core: Missing expected signature field element")

/-- The return-byte decoding inlined in `call_view` (src lines 354-359): print
each field element in decimal (`to_string`), re-parse as `u8`
(`filter_map(|s| s.parse().ok())`), silently dropping elements that fail. -/
def felt_array_to_bytes (felt_array : List FieldElement) : List Nat :=
  (felt_array.map (fun x => decimalChars x.val)).filterMap parseU8

/-- Modelled from the spec: `crate::helpers::vec_felt_to_bytes` is not under
`src/`.  Spec §4.1: the `felt_array -> bytes` direction decodes each element
via its decimal-string form re-parsed as a byte, skipping failures. -/
def vec_felt_to_bytes (l : List FieldElement) : List Nat := felt_array_to_bytes l

/-- Modelled from the spec: `crate::helpers::hash_to_field_element` is not
under `src/`.  A 32-byte hash parsed big-endian as a field element, failing
when the value is not a valid residue (§4.1 codec rules). -/
def hash_to_field_element (h : Hash256) : Except KakarotClientError FieldElement :=
  if hlt : beNat h < STARK_PRIME then .ok ⟨beNat h, hlt⟩
  else .error (.OtherError "Kakarot Core: Failed to convert hash to FieldElement")

/-! ## Client operations (src `impl StarknetClient for StarknetClientImpl`) -/

/-- `get_evm_address` (src lines 676-708): call the contract's
`get_evm_address` entry point, take the first returned element, truncate its
32-byte form to bytes 12..32. -/
def get_evm_address (node : Node) (starknet_address : FieldElement)
    (starknet_block_id : StarknetBlockId) : Except KakarotClientError EthAddress :=
  match node.call ⟨starknet_address, GET_EVM_ADDRESS, []⟩ starknet_block_id with
  | .error e => .error e
  | .ok evm_address_felt =>
    match evm_address_felt.head? with
    | none =>
      .error (.OtherError "Kakarot Core: Failed to get EVM address from smart contract on Kakarot")
    | some f => field_element_to_address f

/-- `safe_get_evm_address` (src lines 179-189): `get_evm_address` with
`unwrap_or_else` falling back to the truncation of the Starknet address
itself; never fails. -/
def safe_get_evm_address (node : Node) (starknet_address : FieldElement)
    (starknet_block_id : StarknetBlockId) : EthAddress :=
  match get_evm_address node starknet_address starknet_block_id with
  | .ok eth_address => eth_address
  | .error _ => starknet_address_to_ethereum_address starknet_address

/-- `compute_starknet_address` (src lines 512-543): call the Kakarot main
contract's `compute_starknet_address` entry point with the address felt as
calldata and return the first element of the result. -/
def compute_starknet_address (node : Node) (ethereum_address : EthAddress)
    (starknet_block_id : StarknetBlockId) : Except KakarotClientError FieldElement :=
  match address_to_field_element ethereum_address with
  | .error e => .error e
  | .ok ethereum_address_felt =>
    match node.call ⟨KAKAROT_MAIN_CONTRACT_ADDRESS, COMPUTE_STARKNET_ADDRESS,
        [ethereum_address_felt]⟩ starknet_block_id with
    | .error e => .error e
    | .ok starknet_contract_address =>
      match starknet_contract_address.head? with
      | none =>
        .error (.OtherError "Kakarot Core: Failed to get Starknet address from Kakarot")
      | some r => .ok r

/-- `get_code` (src lines 257-301): resolve the Starknet contract address by
calling `compute_starknet_address`, then *fold the returned elements with
field addition* ("concatenate", src lines 281-284), call `bytecode` on the
folded address, and flatten the returned elements' 32-byte forms. -/
def get_code (node : Node) (ethereum_address : EthAddress)
    (starknet_block_id : StarknetBlockId) : Except KakarotClientError (List Nat) :=
  match address_to_field_element ethereum_address with
  | .error e => .error e
  | .ok ethereum_address_felt =>
    match node.call ⟨KAKAROT_MAIN_CONTRACT_ADDRESS, COMPUTE_STARKNET_ADDRESS,
        [ethereum_address_felt]⟩ starknet_block_id with
    | .error e => .error e
    | .ok starknet_contract_address =>
      let concatenated_result :=
        starknet_contract_address.foldl (fun acc x => acc + x) (0 : FieldElement)
      match node.call ⟨concatenated_result, BYTECODE, []⟩ starknet_block_id with
      | .error e => .error e
      | .ok contract_bytecode => .ok (contract_bytecode.flatMap to_bytes_be)

/-- `call_view` (src lines 303-366).  The decoder
`decode_execute_at_address_return` lives in `crate::helpers`, which is not
under `src/`, and the spec fixes only its output type (a sequence of
`FeltOrFeltArray` segments), so it is passed in as an explicit function. -/
def call_view (node : Node)
    (decode : List FieldElement → Except KakarotClientError (List FeltOrFeltArray))
    (ethereum_address : EthAddress) (calldata : List Nat)
    (starknet_block_id : StarknetBlockId) : Except KakarotClientError (List Nat) :=
  match address_to_field_element ethereum_address with
  | .error e => .error e
  | .ok ethereum_address_felt =>
    let calldata_vec := calldata.map feltOfNat
    let call_parameters :=
      [ethereum_address_felt, (0 : FieldElement), feltOfNat (STARK_PRIME - 1),
        feltOfNat calldata.length] ++ calldata_vec
    match node.call ⟨KAKAROT_MAIN_CONTRACT_ADDRESS, EXECUTE_AT_ADDRESS,
        call_parameters⟩ starknet_block_id with
    | .error e => .error e
    | .ok call_result =>
      match decode call_result with
      | .error e => .error e
      | .ok segmented_result =>
        match segmented_result.get? 6 with
        | none =>
          .error (.OtherError "Cannot parse and decode last argument of Kakarot call")
        | some return_data =>
          match return_data with
          | .FeltArray felt_array => .ok (felt_array_to_bytes felt_array)
          | .Felt _ =>
            .error (.OtherError "Cannot parse and decode the return data of Kakarot call")

/-- `starknet_tx_into_eth_tx` (src lines 710-949): per-variant extraction into
a canonical Ethereum transaction followed by the class-hash membership gate.
Note the source builds both `kakarot_class_hash` and `kakarot_starknet_address`
by parsing the `KAKAROT_CONTRACT_ACCOUNT_CLASS_HASH` constant (src lines
925-938); the parse of that fixed hex constant always succeeds. -/
def starknet_tx_into_eth_tx (node : Node) (tx : StarknetTransaction)
    (block_hash : Option Hash256) (block_number : Option Nat) :
    Except KakarotClientError EtherTransaction :=
  let arm : Except KakarotClientError (EtherTransaction × FieldElement) :=
    match tx with
    | .Invoke (.V0 v0) =>
      match node.get_class_hash_at (.Tag .Latest) v0.contract_address with
      | .error e => .error e
      | .ok class_hash =>
        match felt_option_to_u256 (v0.signature.get? 0) with
        | .error e => .error e
        | .ok r =>
        match felt_option_to_u256 (v0.signature.get? 1) with
        | .error e => .error e
        | .ok s =>
        match felt_option_to_u256 (v0.signature.get? 2) with
        | .error e => .error e
        | .ok v =>
          .ok ({ defaultEtherTransaction with
                  hash := to_bytes_be v0.transaction_hash
                  nonce := felt_to_u256 v0.nonce
                  from_ := starknet_address_to_ethereum_address v0.contract_address
                  gas_price := none
                  r := r, s := s, v := v
                  input := vec_felt_to_bytes v0.calldata
                  to_ := none
                  value := 100
                  gas := 100
                  chain_id := some CHAIN_ID
                  standard_v := 0
                  creates := none
                  public_key := none
                  block_hash := block_hash
                  block_number := block_number }, class_hash)
    | .Invoke (.V1 v1) =>
      match node.get_class_hash_at (.Tag .Latest) v1.sender_address with
      | .error e => .error e
      | .ok class_hash =>
        match felt_option_to_u256 (v1.signature.get? 0) with
        | .error e => .error e
        | .ok r =>
        match felt_option_to_u256 (v1.signature.get? 1) with
        | .error e => .error e
        | .ok s =>
        match felt_option_to_u256 (v1.signature.get? 2) with
        | .error e => .error e
        | .ok v =>
          .ok ({ defaultEtherTransaction with
                  hash := to_bytes_be v1.transaction_hash
                  nonce := felt_to_u256 v1.nonce
                  from_ := starknet_address_to_ethereum_address v1.sender_address
                  gas_price := none
                  r := r, s := s, v := v
                  input := vec_felt_to_bytes v1.calldata
                  to_ := none
                  value := 100
                  gas := 100
                  chain_id := some CHAIN_ID
                  standard_v := 0
                  creates := none
                  public_key := none
                  access_list := none
                  transaction_type := none
                  block_hash := block_hash
                  block_number := block_number }, class_hash)
    | .L1Handler l1_handler_tx =>
      match node.get_class_hash_at (.Tag .Latest) l1_handler_tx.contract_address with
      | .error e => .error e
      | .ok class_hash =>
        match get_evm_address node l1_handler_tx.contract_address (.Tag .Latest) with
        | .error e => .error e
        | .ok from_address =>
          .ok ({ defaultEtherTransaction with
                  hash := to_bytes_be l1_handler_tx.transaction_hash
                  nonce := l1_handler_tx.nonce
                  from_ := from_address
                  gas_price := none
                  input := vec_felt_to_bytes l1_handler_tx.calldata
                  to_ := none
                  value := 0
                  gas := 0
                  chain_id := some CHAIN_ID
                  creates := none
                  public_key := none
                  block_hash := block_hash
                  block_number := block_number }, class_hash)
    | .Declare declare_tx =>
      match node.get_class_hash_at (.Tag .Latest) declare_tx.sender_address with
      | .error e => .error e
      | .ok class_hash =>
        match felt_option_to_u256 (declare_tx.signature.get? 0) with
        | .error e => .error e
        | .ok r =>
        match felt_option_to_u256 (declare_tx.signature.get? 1) with
        | .error e => .error e
        | .ok s =>
        match felt_option_to_u256 (declare_tx.signature.get? 2) with
        | .error e => .error e
        | .ok v =>
          .ok ({ defaultEtherTransaction with
                  hash := to_bytes_be declare_tx.transaction_hash
                  nonce := felt_to_u256 declare_tx.nonce
                  from_ := starknet_address_to_ethereum_address declare_tx.sender_address
                  gas_price := none
                  r := r, s := s, v := v
                  to_ := none
                  value := 0
                  gas := 0
                  chain_id := some CHAIN_ID
                  standard_v := 0
                  public_key := none
                  block_hash := block_hash
                  block_number := block_number }, class_hash)
    | .Deploy deploy_tx =>
      .ok ({ defaultEtherTransaction with
              hash := to_bytes_be deploy_tx.transaction_hash
              gas_price := none
              creates := none
              public_key := none
              to_ := none
              block_hash := block_hash
              block_number := block_number }, deploy_tx.class_hash)
    | .DeployAccount deploy_account_tx =>
      match felt_option_to_u256 (deploy_account_tx.signature.get? 0) with
      | .error e => .error e
      | .ok r =>
      match felt_option_to_u256 (deploy_account_tx.signature.get? 1) with
      | .error e => .error e
      | .ok s =>
      match felt_option_to_u256 (deploy_account_tx.signature.get? 2) with
      | .error e => .error e
      | .ok v =>
        .ok ({ defaultEtherTransaction with
                hash := to_bytes_be deploy_account_tx.transaction_hash
                nonce := felt_to_u256 deploy_account_tx.nonce
                gas_price := none
                r := r, s := s, v := v
                to_ := none
                gas := 0
                chain_id := some CHAIN_ID
                standard_v := 0
                public_key := none
                block_hash := block_hash
                block_number := block_number }, deploy_account_tx.class_hash)
  match arm with
  | .error e => .error e
  | .ok (ether_tx, class_hash) =>
    let kakarot_class_hash := KAKAROT_CONTRACT_ACCOUNT_CLASS_HASH
    let kakarot_starknet_address := KAKAROT_CONTRACT_ACCOUNT_CLASS_HASH
    if class_hash = kakarot_class_hash then
      .ok { ether_tx with
            to_ := some (starknet_address_to_ethereum_address kakarot_starknet_address) }
    else
      .error (.OtherError "Kakarot Filter: Tx is not part of Kakarot")

/-- The or-pattern of src lines 600-620: the common fields of Invoke, Deploy
and DeployAccount receipts; `none` for the L1Handler and Declare receipt
kinds, which the client does not support. -/
def receipt_common_fields : StarknetTransactionReceipt →
    Option (FieldElement × StarknetTransactionStatus × FieldElement × Nat)
  | .Invoke r => some (r.transaction_hash, r.status, r.block_hash, r.block_number)
  | .Deploy r => some (r.transaction_hash, r.status, r.block_hash, r.block_number)
  | .DeployAccount r => some (r.transaction_hash, r.status, r.block_hash, r.block_number)
  | .L1Handler _ => none
  | .Declare _ => none

/-- `get_transaction_receipt` (src lines 588-674): look the receipt up by
hash, map the supported receipt kinds' fields, resolve `contract_address`
for Invoke-V0 via the safe resolver, then fill `from`/`to` from the
translated transaction; unsupported kinds and translation failures degrade
to `Ok(None)`. -/
def get_transaction_receipt (node : Node) (hash : Hash256) :
    Except KakarotClientError (Option EthTransactionReceipt) :=
  match hash_to_field_element hash with
  | .error e => .error e
  | .ok hash_felt =>
  match node.get_transaction_receipt_r hash_felt with
  | .error e => .error e
  | .ok starknet_tx_receipt =>
  match starknet_tx_receipt with
  | .PendingReceipt => .ok none
  | .Receipt receipt =>
    match receipt_common_fields receipt with
    | none => .ok none
    | some (transaction_hash, status, block_hash, block_number) =>
      let res_receipt := { create_default_transaction_receipt with
        transaction_hash := some (to_bytes_be transaction_hash)
        status_code := some (match status with
          | .Pending => 0
          | .AcceptedOnL1 => 1
          | .AcceptedOnL2 => 1
          | .Rejected => 0)
        block_hash := some (to_bytes_be block_hash)
        block_number := some block_number }
      match node.get_transaction_by_hash hash_felt with
      | .error e => .error e
      | .ok starknet_tx =>
        let with_contract : Option EthTransactionReceipt :=
          match starknet_tx with
          | .Invoke (.V0 v0) =>
            some { res_receipt with
                   contract_address :=
                     some (safe_get_evm_address node v0.contract_address (.Tag .Latest)) }
          | .Invoke (.V1 _) => some res_receipt
          | .DeployAccount _ => some res_receipt
          | .Deploy _ => some res_receipt
          | _ => none
        match with_contract with
        | none => .ok none
        | some res =>
          match starknet_tx_into_eth_tx node starknet_tx none none with
          | .ok tx => .ok (some { res with from_ := tx.from_, to_ := tx.to_ })
          | .error _ => .ok none

/-- `filter_transactions` (src lines 1228-1244): translate each transaction in
order, pushing successes and dropping failures, and always return a
full-transaction body. -/
def filter_transactions (node : Node)
    (initial_transactions : List StarknetTransaction)
    (blockhash_opt : Option Hash256) (blocknum_opt : Option Nat) :
    Except KakarotClientError BlockTransactions :=
  let transactions_vec := initial_transactions.foldl
    (fun acc transaction =>
      match starknet_tx_into_eth_tx node transaction blockhash_opt blocknum_opt with
      | .ok tx_value => acc ++ [tx_value]
      | .error _ => acc)
    []
  .ok (BlockTransactions.Full transactions_vec)

/-- The literal placeholder transactions-root string of src lines 1163-1166;
the code takes ASCII bytes 1..33 of this 66-character hex string. -/
def transactionsRootLiteral : String :=
  "0xac91334ba861cb94cba2b1fd63df7e87c15ca73666201abd10b5462255a5c642"

/-- The literal placeholder receipts-root string of src lines 1167-1170. -/
def receiptsRootLiteral : String :=
  "0xf2c8755adf35e78ffa84999e48aba628e775bb7be3c70209738d736b67a9b549"

/-- ASCII bytes of a string (`str::as_bytes`, all characters here are ASCII). -/
def asciiBytes (s : String) : List Nat := s.toList.map Char.toNat


/-- `starknet_block_to_eth_block` (src lines 951-1227): the four block shapes
(pending/confirmed × hash-only/full transactions) mapped onto a canonical
header and body, with the fixed placeholder fields of src lines 955-976. -/
def starknet_block_to_eth_block (node : Node) (block : MaybePendingStarknetBlock) :
    Except KakarotClientError RichBlock :=
  let gas_limit : Nat := 1000000
  let gas_used : Nat := 500000
  let difficulty : Nat := 1000000
  let nonce : Option (List Nat) := some (natToBytesBE 8 0)
  let size : Option Nat := some 100
  let logs_bloom : List Nat := List.replicate 256 0
  let extra_data : List Nat := [48, 120, 48, 48]
  let total_difficulty : Nat := 1000000
  let base_fee_per_gas : Nat := 32
  let mix_hash : List Nat := natToBytesBE 32 0
  match block with
  | .BlockWithTxHashes (.PendingBlock pending_block_with_tx_hashes) =>
    let parent_hash := to_bytes_be pending_block_with_tx_hashes.parent_hash
    let sequencer := (to_bytes_be pending_block_with_tx_hashes.sequencer_address).drop 12
    let timestamp := pending_block_with_tx_hashes.timestamp
    let transactions := BlockTransactions.Hashes
      (pending_block_with_tx_hashes.transactions.map to_bytes_be)
    let header : Header :=
      { hash := none, parent_hash := parent_hash, uncles_hash := parent_hash,
        author := sequencer, miner := sequencer,
        state_root := List.replicate 32 0,
        transactions_root := List.replicate 32 0,
        receipts_root := List.replicate 32 0,
        number := none, gas_used := gas_used, gas_limit := gas_limit,
        extra_data := extra_data, logs_bloom := logs_bloom,
        timestamp := timestamp, difficulty := difficulty, nonce := nonce,
        size := size, base_fee_per_gas := base_fee_per_gas, mix_hash := mix_hash }
    let blk : Block :=
      { header := header, total_difficulty := total_difficulty, uncles := [],
        transactions := transactions, base_fee_per_gas := none, size := size }
    .ok ⟨blk⟩
  | .BlockWithTxHashes (.Block block_with_tx_hashes) =>
    let hash := to_bytes_be block_with_tx_hashes.block_hash
    let parent_hash := to_bytes_be block_with_tx_hashes.parent_hash
    let sequencer := (to_bytes_be block_with_tx_hashes.sequencer_address).drop 12
    let state_root := to_bytes_be block_with_tx_hashes.new_root
    let number := block_with_tx_hashes.block_number
    let timestamp := block_with_tx_hashes.timestamp
    let transactions := BlockTransactions.Hashes
      (block_with_tx_hashes.transactions.map to_bytes_be)
    let header : Header :=
      { hash := some hash, parent_hash := parent_hash, uncles_hash := parent_hash,
        author := sequencer, miner := sequencer, state_root := state_root,
        transactions_root := List.replicate 32 0,
        receipts_root := List.replicate 32 0,
        number := some number, gas_used := gas_used, gas_limit := gas_limit,
        extra_data := extra_data, logs_bloom := logs_bloom,
        timestamp := timestamp, difficulty := difficulty, nonce := nonce,
        size := size, base_fee_per_gas := base_fee_per_gas, mix_hash := mix_hash }
    let blk : Block :=
      { header := header, total_difficulty := total_difficulty, uncles := [],
        transactions := transactions, base_fee_per_gas := none, size := size }
    .ok ⟨blk⟩
  | .BlockWithTxs (.PendingBlock pending_block_with_txs) =>
    let parent_hash := to_bytes_be pending_block_with_txs.parent_hash
    let sequencer := (to_bytes_be pending_block_with_txs.sequencer_address).drop 12
    let timestamp := pending_block_with_txs.timestamp
    match filter_transactions node pending_block_with_txs.transactions none none with
    | .error e => .error e
    | .ok transactions =>
      let header : Header :=
        { hash := none, parent_hash := parent_hash, uncles_hash := parent_hash,
          author := sequencer, miner := sequencer,
          state_root := List.replicate 32 0,
          transactions_root := List.replicate 32 0,
          receipts_root := List.replicate 32 0,
          number := none, gas_used := gas_used, gas_limit := gas_limit,
          extra_data := extra_data, logs_bloom := logs_bloom,
          timestamp := timestamp, difficulty := difficulty, nonce := nonce,
          size := size, base_fee_per_gas := base_fee_per_gas, mix_hash := mix_hash }
      let blk : Block :=
        { header := header, total_difficulty := total_difficulty, uncles := [],
          transactions := transactions, base_fee_per_gas := none, size := size }
      .ok ⟨blk⟩
  | .BlockWithTxs (.Block block_with_txs) =>
    let hash := to_bytes_be block_with_txs.block_hash
    let parent_hash := to_bytes_be block_with_txs.parent_hash
    let sequencer := (to_bytes_be block_with_txs.sequencer_address).drop 12
    let state_root := to_bytes_be block_with_txs.new_root
    let transactions_root := ((asciiBytes transactionsRootLiteral).drop 1).take 32
    let receipts_root := ((asciiBytes receiptsRootLiteral).drop 1).take 32
    let number := block_with_txs.block_number
    let timestamp := block_with_txs.timestamp
    let blockhash_opt := some (to_bytes_be block_with_txs.block_hash)
    let blocknum_opt := some block_with_txs.block_number
    match filter_transactions node block_with_txs.transactions blockhash_opt blocknum_opt with
    | .error e => .error e
    | .ok transactions =>
      let header : Header :=
        { hash := some hash, parent_hash := parent_hash, uncles_hash := parent_hash,
          author := sequencer, miner := sequencer, state_root := state_root,
          transactions_root := transactions_root, receipts_root := receipts_root,
          number := some number, gas_used := gas_used, gas_limit := gas_limit,
          extra_data := extra_data, logs_bloom := logs_bloom,
          timestamp := timestamp, difficulty := difficulty, nonce := nonce,
          size := size, base_fee_per_gas := base_fee_per_gas, mix_hash := mix_hash }
      let blk : Block :=
        { header := header, total_difficulty := total_difficulty, uncles := [],
          transactions := transactions, base_fee_per_gas := none, size := size }
      .ok ⟨blk⟩

/-- Rust's `Result::unwrap` on the block conversion, modelled non-abortively:
`none` stands for the panic. -/
def unwrapModel {ε α : Type} : Except ε α → Option α
  | .ok x => some x
  | .error _ => none

/-- `get_eth_block_from_starknet_block` (src lines 220-242): fetch the block
(hash-only or hydrated), convert it, and `.unwrap()` the conversion result.
The inner `Option` models the unwrap: `some` is the returned block, `none`
is the panic that would abort the process. -/
def get_eth_block_from_starknet_block (node : Node) (block_id : StarknetBlockId)
    (hydrated_tx : Bool) : Except KakarotClientError (Option RichBlock) :=
  let fetched : Except KakarotClientError MaybePendingStarknetBlock :=
    if hydrated_tx then
      match node.get_block_with_txs block_id with
      | .error e => .error e
      | .ok b => .ok (MaybePendingStarknetBlock.BlockWithTxs b)
    else
      match node.get_block_with_tx_hashes block_id with
      | .error e => .error e
      | .ok b => .ok (MaybePendingStarknetBlock.BlockWithTxHashes b)
  match fetched with
  | .error e => .error e
  | .ok starknet_block =>
    .ok (unwrapModel (starknet_block_to_eth_block node starknet_block))

/-! ## Helper lemmas and claim-level definitions -/

theorem filter_foldl_aux (node : Node) (bh : Option Hash256) (bn : Option Nat)
    (txs : List StarknetTransaction) (acc : List EtherTransaction) :
    txs.foldl
      (fun acc transaction =>
        match starknet_tx_into_eth_tx node transaction bh bn with
        | .ok tx_value => acc ++ [tx_value]
        | .error _ => acc)
      acc
    = acc ++ txs.filterMap (fun t => (starknet_tx_into_eth_tx node t bh bn).toOption) := by
  induction txs generalizing acc with
  | nil => simp
  | cons t ts ih =>
    simp only [List.foldl_cons, List.filterMap_cons]
    cases h : starknet_tx_into_eth_tx node t bh bn with
    | ok v => simp [h, ih, Except.toOption]
    | error e => simp [h, ih, Except.toOption]

/-- What `filter_transactions` computes: the in-order list of successful
translations, always wrapped in `Ok(Full(..))`. -/
theorem filter_transactions_spec (node : Node) (txs : List StarknetTransaction)
    (bh : Option Hash256) (bn : Option Nat) :
    filter_transactions node txs bh bn =
      .ok (BlockTransactions.Full
        (txs.filterMap (fun t => (starknet_tx_into_eth_tx node t bh bn).toOption))) := by
  simp only [filter_transactions]
  rw [filter_foldl_aux]
  simp

/-- The class hash the translator compares at the gate: resolved remotely at
the latest-tag block for Invoke/L1Handler/Declare, carried inline by
Deploy/DeployAccount (src lines 726-732, 768-774, 816-822, 854-860, 888, 902). -/
def resolved_class_hash (node : Node) :
    StarknetTransaction → Except KakarotClientError FieldElement
  | .Invoke (.V0 v0) => node.get_class_hash_at (.Tag .Latest) v0.contract_address
  | .Invoke (.V1 v1) => node.get_class_hash_at (.Tag .Latest) v1.sender_address
  | .L1Handler l => node.get_class_hash_at (.Tag .Latest) l.contract_address
  | .Declare d => node.get_class_hash_at (.Tag .Latest) d.sender_address
  | .Deploy d => .ok d.class_hash
  | .DeployAccount d => .ok d.class_hash

/-- The per-variant extraction steps that run before the gate can be reached:
three signature slots for the signed variants, the ground-truth EVM-address
lookup for L1Handler, nothing for Deploy. -/
def pre_gate_ok (node : Node) : StarknetTransaction → Prop
  | .Invoke (.V0 v0) => 3 ≤ v0.signature.length
  | .Invoke (.V1 v1) => 3 ≤ v1.signature.length
  | .L1Handler l => ∃ a, get_evm_address node l.contract_address (.Tag .Latest) = .ok a
  | .Declare d => 3 ≤ d.signature.length
  | .Deploy _ => True
  | .DeployAccount d => 3 ≤ d.signature.length

/-- The signature field carried by a Starknet transaction, when its kind has
one (Deploy and L1Handler transactions are unsigned in the provider model). -/
def signature_of : StarknetTransaction → Option (List FieldElement)
  | .Invoke (.V0 v0) => some v0.signature
  | .Invoke (.V1 v1) => some v1.signature
  | .Declare d => some d.signature
  | .DeployAccount d => some d.signature
  | .L1Handler _ => none
  | .Deploy _ => none

/-- A remote node that fails every call: used to exercise error paths. -/
def nodeDown : Node where
  call := fun _ _ => .error (.RequestError "connection refused")
  get_class_hash_at := fun _ _ => .error (.RequestError "connection refused")
  get_transaction_receipt_r := fun _ => .error (.RequestError "connection refused")
  get_transaction_by_hash := fun _ => .error (.RequestError "connection refused")
  get_block_with_txs := fun _ => .error (.RequestError "connection refused")
  get_block_with_tx_hashes := fun _ => .error (.RequestError "connection refused")

/-- A Deploy transaction whose inline class hash is the Kakarot account class
hash, so the gate accepts it. -/
def deployTxKakarot : DeployTransaction where
  transaction_hash := feltOfNat 17
  class_hash := KAKAROT_CONTRACT_ACCOUNT_CLASS_HASH
  version := 0
  contract_address_salt := feltOfNat 0
  constructor_calldata := []

/-- A Deploy transaction whose inline class hash differs from the Kakarot
account class hash, so the gate rejects it. -/
def deployTxOther : DeployTransaction where
  transaction_hash := feltOfNat 18
  class_hash := feltOfNat 5
  version := 0
  contract_address_salt := feltOfNat 0
  constructor_calldata := []

/-- C1: membership gate.  Whenever a transaction's resolved (or
inline-declared) class hash differs from the Kakarot account class hash — and
the extraction steps preceding the gate succeed — the standalone translator
`starknet_tx_into_eth_tx` fails with the `NotKakarotTransaction` error, and
`filter_transactions` returns `Ok` of exactly the in-order successful
translations, omitting the failed ones instead of failing the block body. -/
theorem membership_gate (node : Node) :
    (∀ (tx : StarknetTransaction) (bh : Option Hash256) (bn : Option Nat)
        (ch : FieldElement),
      resolved_class_hash node tx = .ok ch →
      ch ≠ KAKAROT_CONTRACT_ACCOUNT_CLASS_HASH →
      pre_gate_ok node tx →
      starknet_tx_into_eth_tx node tx bh bn =
        .error (.OtherError "Kakarot Filter: Tx is not part of Kakarot")) ∧
    (∀ (txs : List StarknetTransaction) (bh : Option Hash256) (bn : Option Nat),
      filter_transactions node txs bh bn =
        .ok (BlockTransactions.Full
          (txs.filterMap (fun t => (starknet_tx_into_eth_tx node t bh bn).toOption)))) := by
  constructor
  · intro tx bh bn ch hres hne hpre
    cases tx with
    | Invoke itx =>
      cases itx with
      | V0 v0 =>
        simp only [resolved_class_hash] at hres
        simp only [pre_gate_ok] at hpre
        have h0 := List.getElem?_eq_getElem (show 0 < v0.signature.length by omega)
        have h1 := List.getElem?_eq_getElem (show 1 < v0.signature.length by omega)
        have h2 := List.getElem?_eq_getElem (show 2 < v0.signature.length by omega)
        simp [starknet_tx_into_eth_tx, hres, h0, h1, h2, felt_option_to_u256, hne]
      | V1 v1 =>
        simp only [resolved_class_hash] at hres
        simp only [pre_gate_ok] at hpre
        have h0 := List.getElem?_eq_getElem (show 0 < v1.signature.length by omega)
        have h1 := List.getElem?_eq_getElem (show 1 < v1.signature.length by omega)
        have h2 := List.getElem?_eq_getElem (show 2 < v1.signature.length by omega)
        simp [starknet_tx_into_eth_tx, hres, h0, h1, h2, felt_option_to_u256, hne]
    | L1Handler l =>
      simp only [resolved_class_hash] at hres
      simp only [pre_gate_ok] at hpre
      obtain ⟨a, ha⟩ := hpre
      simp [starknet_tx_into_eth_tx, hres, ha, hne]
    | Declare d =>
      simp only [resolved_class_hash] at hres
      simp only [pre_gate_ok] at hpre
      have h0 := List.getElem?_eq_getElem (show 0 < d.signature.length by omega)
      have h1 := List.getElem?_eq_getElem (show 1 < d.signature.length by omega)
      have h2 := List.getElem?_eq_getElem (show 2 < d.signature.length by omega)
      simp [starknet_tx_into_eth_tx, hres, h0, h1, h2, felt_option_to_u256, hne]
    | Deploy d =>
      simp only [resolved_class_hash] at hres
      cases hres
      simp [starknet_tx_into_eth_tx, hne]
    | DeployAccount d =>
      simp only [resolved_class_hash] at hres
      simp only [pre_gate_ok] at hpre
      cases hres
      have h0 := List.getElem?_eq_getElem (show 0 < d.signature.length by omega)
      have h1 := List.getElem?_eq_getElem (show 1 < d.signature.length by omega)
      have h2 := List.getElem?_eq_getElem (show 2 < d.signature.length by omega)
      simp [starknet_tx_into_eth_tx, h0, h1, h2, felt_option_to_u256, hne]
  · intro txs bh bn
    exact filter_transactions_spec node txs bh bn

/-- C1 witness: a Deploy transaction with a non-Kakarot class hash is rejected
with the membership error by the translator at a concrete input. -/
theorem membership_gate_witness :
    starknet_tx_into_eth_tx nodeDown (.Deploy deployTxOther) none none =
      .error (.OtherError "Kakarot Filter: Tx is not part of Kakarot") :=
  (membership_gate nodeDown).1 (.Deploy deployTxOther) none none (feltOfNat 5)
    rfl (by decide) (by simp [pre_gate_ok])

/-- C10: implicit totality of block conversion.  `filter_transactions` returns
`Ok` of a full body on every input; `starknet_block_to_eth_block` returns `Ok`
on every block; and `get_eth_block_from_starknet_block` either propagates the
remote fetch error or returns `Ok` of a block — the `.unwrap()` (modelled as
the inner `Option`, `none` being the panic) can never panic. -/
theorem block_conversion_total (node : Node) :
    (∀ (txs : List StarknetTransaction) (bh : Option Hash256) (bn : Option Nat),
      ∃ l, filter_transactions node txs bh bn = .ok (BlockTransactions.Full l)) ∧
    (∀ (blk : MaybePendingStarknetBlock),
      ∃ r, starknet_block_to_eth_block node blk = .ok r) ∧
    (∀ (block_id : StarknetBlockId) (hydrated_tx : Bool),
      (∃ e, get_eth_block_from_starknet_block node block_id hydrated_tx = .error e) ∨
      (∃ r, get_eth_block_from_starknet_block node block_id hydrated_tx = .ok (some r))) := by
  have hfull : ∀ (txs : List StarknetTransaction) (bh : Option Hash256) (bn : Option Nat),
      ∃ l, filter_transactions node txs bh bn = .ok (BlockTransactions.Full l) :=
    fun txs bh bn => ⟨_, filter_transactions_spec node txs bh bn⟩
  have hconv : ∀ (blk : MaybePendingStarknetBlock),
      ∃ r, starknet_block_to_eth_block node blk = .ok r := by
    intro blk
    match blk with
    | .BlockWithTxHashes (.PendingBlock b) => exact ⟨_, rfl⟩
    | .BlockWithTxHashes (.Block b) => exact ⟨_, rfl⟩
    | .BlockWithTxs (.PendingBlock b) =>
      obtain ⟨l, hl⟩ := hfull b.transactions none none
      cases hres : starknet_block_to_eth_block node (.BlockWithTxs (.PendingBlock b)) with
      | ok r => exact ⟨r, rfl⟩
      | error e =>
        simp only [starknet_block_to_eth_block, hl] at hres
        exact Except.noConfusion hres
    | .BlockWithTxs (.Block b) =>
      obtain ⟨l, hl⟩ := hfull b.transactions
        (some (to_bytes_be b.block_hash)) (some b.block_number)
      cases hres : starknet_block_to_eth_block node (.BlockWithTxs (.Block b)) with
      | ok r => exact ⟨r, rfl⟩
      | error e =>
        simp only [starknet_block_to_eth_block, hl] at hres
        exact Except.noConfusion hres
  refine ⟨hfull, hconv, ?_⟩
  intro block_id hydrated_tx
  cases hydrated_tx with
  | true =>
    cases hfetch : node.get_block_with_txs block_id with
    | error e =>
      refine Or.inl ⟨e, ?_⟩
      simp [get_eth_block_from_starknet_block, hfetch]
    | ok b =>
      obtain ⟨r, hr⟩ := hconv (.BlockWithTxs b)
      refine Or.inr ⟨r, ?_⟩
      simp [get_eth_block_from_starknet_block, hfetch, hr, unwrapModel]
  | false =>
    cases hfetch : node.get_block_with_tx_hashes block_id with
    | error e =>
      refine Or.inl ⟨e, ?_⟩
      simp [get_eth_block_from_starknet_block, hfetch]
    | ok b =>
      obtain ⟨r, hr⟩ := hconv (.BlockWithTxHashes b)
      refine Or.inr ⟨r, ?_⟩
      simp [get_eth_block_from_starknet_block, hfetch, hr, unwrapModel]

/-- C5: safe EVM-address fallback.  `safe_get_evm_address` returns the
underlying lookup's result unchanged on success, and on any failure returns
the 20-byte truncation of the Starknet address's own 32-byte big-endian
representation — by its return type it never yields an error. -/
theorem safe_get_evm_address_fallback (node : Node) :
    (∀ (sa : FieldElement) (bid : StarknetBlockId) (a : EthAddress),
      get_evm_address node sa bid = .ok a → safe_get_evm_address node sa bid = a) ∧
    (∀ (sa : FieldElement) (bid : StarknetBlockId) (e : KakarotClientError),
      get_evm_address node sa bid = .error e →
      safe_get_evm_address node sa bid = starknet_address_to_ethereum_address sa) := by
  constructor
  · intro sa bid a h
    simp [safe_get_evm_address, h]
  · intro sa bid e h
    simp [safe_get_evm_address, h]

/-- C5 witness: with an unreachable remote node every lookup fails, and the
safe resolver returns the truncation of the Starknet address itself. -/
theorem safe_get_evm_address_fallback_witness :
    safe_get_evm_address nodeDown (feltOfNat 3) (.Tag .Latest) =
      starknet_address_to_ethereum_address (feltOfNat 3) :=
  (safe_get_evm_address_fallback nodeDown).2 (feltOfNat 3) (.Tag .Latest)
    (.RequestError "connection refused") rfl

/-- C3: address round-trip.  For every 20-byte Ethereum address, hex-encoding
and parsing it as a big-endian field element succeeds, and serializing that
element to 32 big-endian bytes and taking bytes 12..32 yields the address
again. -/
theorem address_round_trip (a : EthAddress) (h20 : a.length = 20)
    (hb : ∀ b ∈ a, b < 256) :
    ∃ f, address_to_field_element a = .ok f ∧ field_element_to_address f = .ok a := by
  have hparse := parseHexDigits_hexEncode a hb
  have hlt : beNat a < STARK_PRIME := by
    have h1 : beNat a < 256 ^ a.length := beNat_lt_pow a hb
    have h2 : (256 : Nat) ^ 20 < STARK_PRIME := by decide
    rw [h20] at h1
    omega
  refine ⟨⟨beNat a, hlt⟩, ?_, ?_⟩
  · simp [address_to_field_element, hparse, hlt]
  · have hbytes : to_bytes_be (⟨beNat a, hlt⟩ : FieldElement) =
        List.replicate 12 0 ++ a := by
      simp [to_bytes_be]
      exact natToBytesBE32_of_20 a h20 hb
    have hlen32 : (to_bytes_be (⟨beNat a, hlt⟩ : FieldElement)).length = 32 := by
      simp [to_bytes_be, natToBytesBE_length]
    have hdrop : ((to_bytes_be (⟨beNat a, hlt⟩ : FieldElement)).drop 12).take 20 = a := by
      rw [hbytes]
      have : (List.replicate 12 0 ++ a).drop 12 = a := by
        have hdl := List.drop_left (List.replicate 12 (0 : Nat)) a
        rwa [List.length_replicate] at hdl
      rw [this]
      exact List.take_of_length_le (by omega)
    simp only [field_element_to_address, sliceGet, hlen32]
    norm_num
    exact hdrop

/-- C3 witness: the round trip at a concrete 20-byte address. -/
theorem address_round_trip_witness :
    ∃ f, address_to_field_element (List.range 20) = .ok f ∧
      field_element_to_address f = .ok (List.range 20) :=
  address_round_trip (List.range 20) (by decide) (by decide)

/-- C4: byte-decoding lossiness.  The felt-array-to-bytes conversion decodes
each element via its decimal display re-parsed as a byte, keeping exactly the
elements whose value fits in 0..255, as those bytes in the original order,
and silently dropping every other element instead of failing. -/
theorem felt_array_to_bytes_lossy (l : List FieldElement) :
    felt_array_to_bytes l =
      l.filterMap (fun x => if x.val ≤ 255 then some x.val else none) := by
  induction l with
  | nil => rfl
  | cons x t ih =>
    simp only [felt_array_to_bytes, List.map_cons, List.filterMap_cons,
      parseU8_decimalChars] at ih ⊢
    by_cases hx : x.val ≤ 255
    · simp [hx, ih]
    · simp [hx, ih]

/-- C2: segment-index contract of `call_view`.  Given a successful remote call
and a successful decode, a decoded result with fewer than 7 segments yields
the missing-segment `OtherError`, a scalar at segment index 6 yields the
return-data `OtherError`, and an array at index 6 is decoded as the returned
bytes; the function is total, so no input can panic. -/
theorem call_view_segment_contract (node : Node)
    (decode : List FieldElement → Except KakarotClientError (List FeltOrFeltArray))
    (ethereum_address : EthAddress) (calldata : List Nat)
    (bid : StarknetBlockId) (af : FieldElement) (res : List FieldElement)
    (segs : List FeltOrFeltArray)
    (haddr : address_to_field_element ethereum_address = .ok af)
    (hcall : node.call
      ⟨KAKAROT_MAIN_CONTRACT_ADDRESS, EXECUTE_AT_ADDRESS,
        [af, (0 : FieldElement), feltOfNat (STARK_PRIME - 1),
          feltOfNat calldata.length] ++ calldata.map feltOfNat⟩ bid = .ok res)
    (hdec : decode res = .ok segs) :
    (segs.length < 7 →
      call_view node decode ethereum_address calldata bid =
        .error (.OtherError "Cannot parse and decode last argument of Kakarot call")) ∧
    (∀ f, segs.get? 6 = some (.Felt f) →
      call_view node decode ethereum_address calldata bid =
        .error (.OtherError "Cannot parse and decode the return data of Kakarot call")) ∧
    (∀ fa, segs.get? 6 = some (.FeltArray fa) →
      call_view node decode ethereum_address calldata bid =
        .ok (felt_array_to_bytes fa)) := by
  simp only [List.cons_append, List.nil_append] at hcall
  refine ⟨?_, ?_, ?_⟩
  · intro hlen
    have h6 : segs[6]? = none := by
      rw [List.getElem?_eq_none_iff]
      omega
    simp [call_view, haddr, hcall, hdec, h6]
  · intro f h6
    rw [List.get?_eq_getElem?] at h6
    simp [call_view, haddr, hcall, hdec, h6]
  · intro fa h6
    rw [List.get?_eq_getElem?] at h6
    simp [call_view, haddr, hcall, hdec, h6]

/-- A concrete 20-byte address and its parsed field element, for witnesses. -/
def addrRange20 : EthAddress := List.range 20

/-- The field element `addrRange20` parses to. -/
def addrRange20Felt : FieldElement := feltOfNat (beNat addrRange20)

/-- A remote node whose `call` returns an empty result, for the C2 witness. -/
def nodeEmptyCall : Node where
  call := fun _ _ => .ok []
  get_class_hash_at := fun _ _ => .error (.RequestError "connection refused")
  get_transaction_receipt_r := fun _ => .error (.RequestError "connection refused")
  get_transaction_by_hash := fun _ => .error (.RequestError "connection refused")
  get_block_with_txs := fun _ => .error (.RequestError "connection refused")
  get_block_with_tx_hashes := fun _ => .error (.RequestError "connection refused")

/-- A decoder returning six scalar segments and an array segment at index 6. -/
def decodeSeven : List FieldElement → Except KakarotClientError (List FeltOrFeltArray) :=
  fun _ => .ok [.Felt (feltOfNat 0), .Felt (feltOfNat 0), .Felt (feltOfNat 0),
    .Felt (feltOfNat 0), .Felt (feltOfNat 0), .Felt (feltOfNat 0),
    .FeltArray [feltOfNat 65, feltOfNat 300]]

/-- C2 witness: with an array segment at index 6 the bytes of its elements are
returned (the out-of-range element 300 silently dropped by the byte decode). -/
theorem call_view_segment_contract_witness :
    call_view nodeEmptyCall decodeSeven addrRange20 [] (.Tag .Latest) =
      .ok (felt_array_to_bytes [feltOfNat 65, feltOfNat 300]) :=
  (call_view_segment_contract nodeEmptyCall decodeSeven addrRange20 [] (.Tag .Latest)
    addrRange20Felt []
    [.Felt (feltOfNat 0), .Felt (feltOfNat 0), .Felt (feltOfNat 0),
      .Felt (feltOfNat 0), .Felt (feltOfNat 0), .Felt (feltOfNat 0),
      .FeltArray [feltOfNat 65, feltOfNat 300]]
    rfl rfl rfl).2.2 [feltOfNat 65, feltOfNat 300] rfl

/-- A remote node returning the two-element result `[1, 1]` for the
`compute_starknet_address` call, and serving bytecode only at the folded
address 2: distinguishes first-element resolution from fold resolution. -/
def nodeTwoElements : Node where
  call := fun fc _ =>
    if fc.entry_point_selector = COMPUTE_STARKNET_ADDRESS then
      .ok [feltOfNat 1, feltOfNat 1]
    else if fc.entry_point_selector = BYTECODE then
      (if fc.contract_address = feltOfNat 2 then .ok [feltOfNat 7]
       else .error (.RequestError "contract not found"))
    else .error (.RequestError "unexpected call")
  get_class_hash_at := fun _ _ => .error (.RequestError "connection refused")
  get_transaction_receipt_r := fun _ => .error (.RequestError "connection refused")
  get_transaction_by_hash := fun _ => .error (.RequestError "connection refused")
  get_block_with_txs := fun _ => .error (.RequestError "connection refused")
  get_block_with_tx_hashes := fun _ => .error (.RequestError "connection refused")

/-- C6 evaluation at the failing input: on the same remote result `[1, 1]`,
`compute_starknet_address` returns the first element 1, but the resolution
step inside `get_code` folds the elements with field addition and reads the
bytecode at address 2 = 1 + 1 — the code comment says "concatenate" yet the
code sums, so the two paths disagree. -/
theorem get_code_fold_disagrees_with_first :
    compute_starknet_address nodeTwoElements addrRange20 (.Tag .Latest) =
      .ok (feltOfNat 1) ∧
    get_code nodeTwoElements addrRange20 (.Tag .Latest) =
      .ok (to_bytes_be (feltOfNat 7)) ∧
    (feltOfNat 1 : FieldElement) ≠ feltOfNat 2 := by
  refine ⟨rfl, rfl, by decide⟩

/-- C7 evaluation at the failing input: a gate-passing Deploy transaction has
`to` set to the 20-byte truncation of the `KAKAROT_CONTRACT_ACCOUNT_CLASS_HASH`
constant (the source re-parses the class-hash constant at src lines 932-938),
which differs from the truncation of the Kakarot main contract's Starknet
address that the claim prescribes. -/
theorem gate_to_address_from_class_hash :
    ∃ et, starknet_tx_into_eth_tx nodeDown (.Deploy deployTxKakarot) none none = .ok et ∧
      et.to_ = some (starknet_address_to_ethereum_address KAKAROT_CONTRACT_ACCOUNT_CLASS_HASH) ∧
      et.to_ ≠ some (starknet_address_to_ethereum_address KAKAROT_MAIN_CONTRACT_ADDRESS) := by
  refine ⟨_, rfl, rfl, by decide⟩

/-- C8 counterexample: a Deploy transaction whose inline class hash passes the
gate is translated successfully while `r`, `s`, `v` remain at their all-zero
defaults — refuting the claim that no variant leaves them at zero defaults on
success. -/
theorem deploy_success_zero_signature :
    signature_of (.Deploy deployTxKakarot) = none ∧
    ∃ et, starknet_tx_into_eth_tx nodeDown (.Deploy deployTxKakarot) none none = .ok et ∧
      et.r = 0 ∧ et.s = 0 ∧ et.v = 0 := by
  exact ⟨rfl, _, rfl, rfl, rfl, rfl⟩

/-- C8 (amended): every variant carrying a signature (Invoke V0/V1, Declare,
DeployAccount) populates `r`, `s`, `v` from signature elements 0, 1, 2 and
fails when fewer than three are present; the unsigned Deploy and L1Handler
arms set none of the three, leaving them at their zero defaults even on
success. -/
theorem signature_extraction_amended (node : Node) (tx : StarknetTransaction)
    (bh : Option Hash256) (bn : Option Nat) :
    (∀ sig, signature_of tx = some sig →
      ((sig.length < 3 → ∃ e, starknet_tx_into_eth_tx node tx bh bn = .error e) ∧
       (∀ et, starknet_tx_into_eth_tx node tx bh bn = .ok et →
         ∃ x0 x1 x2, sig[0]? = some x0 ∧ sig[1]? = some x1 ∧ sig[2]? = some x2 ∧
           et.r = felt_to_u256 x0 ∧ et.s = felt_to_u256 x1 ∧ et.v = felt_to_u256 x2))) ∧
    (signature_of tx = none →
      ∀ et, starknet_tx_into_eth_tx node tx bh bn = .ok et →
        et.r = 0 ∧ et.s = 0 ∧ et.v = 0) := by
  cases tx with
  | Invoke itx =>
    cases itx with
    | V0 v0 =>
      constructor
      · intro sig hsig
        simp only [signature_of, Option.some.injEq] at hsig
        subst hsig
        constructor
        · intro hlt
          cases hch : node.get_class_hash_at (.Tag .Latest) v0.contract_address with
          | error e => exact ⟨e, by simp [starknet_tx_into_eth_tx, hch]⟩
          | ok ch =>
            cases h0 : v0.signature[0]? with
            | none =>
              exact ⟨.OtherError "Kakarot Core: Missing expected signature field element",
                by simp [starknet_tx_into_eth_tx, hch, h0, felt_option_to_u256]⟩
            | some x0 =>
              cases h1 : v0.signature[1]? with
              | none =>
                exact ⟨.OtherError "Kakarot Core: Missing expected signature field element",
                  by simp [starknet_tx_into_eth_tx, hch, h0, h1, felt_option_to_u256]⟩
              | some x1 =>
                have h2 : v0.signature[2]? = none := by
                  rw [List.getElem?_eq_none_iff]; omega
                exact ⟨.OtherError "Kakarot Core: Missing expected signature field element",
                  by simp [starknet_tx_into_eth_tx, hch, h0, h1, h2, felt_option_to_u256]⟩
        · intro et het
          cases hch : node.get_class_hash_at (.Tag .Latest) v0.contract_address with
          | error e => simp [starknet_tx_into_eth_tx, hch] at het
          | ok ch =>
            cases h0 : v0.signature[0]? with
            | none => simp [starknet_tx_into_eth_tx, hch, h0, felt_option_to_u256] at het
            | some x0 =>
              cases h1 : v0.signature[1]? with
              | none => simp [starknet_tx_into_eth_tx, hch, h0, h1, felt_option_to_u256] at het
              | some x1 =>
                cases h2 : v0.signature[2]? with
                | none =>
                  simp [starknet_tx_into_eth_tx, hch, h0, h1, h2, felt_option_to_u256] at het
                | some x2 =>
                  simp only [starknet_tx_into_eth_tx, List.get?_eq_getElem?, hch, h0, h1, h2,
                    felt_option_to_u256] at het
                  split at het
                  · injection het with hrec
                    subst hrec
                    exact ⟨x0, x1, x2, rfl, rfl, rfl, rfl, rfl, rfl⟩
                  · exact Except.noConfusion het
      · intro hnone
        simp [signature_of] at hnone
    | V1 v1 =>
      constructor
      · intro sig hsig
        simp only [signature_of, Option.some.injEq] at hsig
        subst hsig
        constructor
        · intro hlt
          cases hch : node.get_class_hash_at (.Tag .Latest) v1.sender_address with
          | error e => exact ⟨e, by simp [starknet_tx_into_eth_tx, hch]⟩
          | ok ch =>
            cases h0 : v1.signature[0]? with
            | none =>
              exact ⟨.OtherError "Kakarot Core: Missing expected signature field element",
                by simp [starknet_tx_into_eth_tx, hch, h0, felt_option_to_u256]⟩
            | some x0 =>
              cases h1 : v1.signature[1]? with
              | none =>
                exact ⟨.OtherError "Kakarot Core: Missing expected signature field element",
                  by simp [starknet_tx_into_eth_tx, hch, h0, h1, felt_option_to_u256]⟩
              | some x1 =>
                have h2 : v1.signature[2]? = none := by
                  rw [List.getElem?_eq_none_iff]; omega
                exact ⟨.OtherError "Kakarot Core: Missing expected signature field element",
                  by simp [starknet_tx_into_eth_tx, hch, h0, h1, h2, felt_option_to_u256]⟩
        · intro et het
          cases hch : node.get_class_hash_at (.Tag .Latest) v1.sender_address with
          | error e => simp [starknet_tx_into_eth_tx, hch] at het
          | ok ch =>
            cases h0 : v1.signature[0]? with
            | none => simp [starknet_tx_into_eth_tx, hch, h0, felt_option_to_u256] at het
            | some x0 =>
              cases h1 : v1.signature[1]? with
              | none => simp [starknet_tx_into_eth_tx, hch, h0, h1, felt_option_to_u256] at het
              | some x1 =>
                cases h2 : v1.signature[2]? with
                | none =>
                  simp [starknet_tx_into_eth_tx, hch, h0, h1, h2, felt_option_to_u256] at het
                | some x2 =>
                  simp only [starknet_tx_into_eth_tx, List.get?_eq_getElem?, hch, h0, h1, h2,
                    felt_option_to_u256] at het
                  split at het
                  · injection het with hrec
                    subst hrec
                    exact ⟨x0, x1, x2, rfl, rfl, rfl, rfl, rfl, rfl⟩
                  · exact Except.noConfusion het
      · intro hnone
        simp [signature_of] at hnone
  | L1Handler l =>
    constructor
    · intro sig hsig
      simp [signature_of] at hsig
    · intro _ et het
      cases hch : node.get_class_hash_at (.Tag .Latest) l.contract_address with
      | error e => simp [starknet_tx_into_eth_tx, hch] at het
      | ok ch =>
        cases hevm : get_evm_address node l.contract_address (.Tag .Latest) with
        | error e => simp [starknet_tx_into_eth_tx, hch, hevm] at het
        | ok a =>
          simp only [starknet_tx_into_eth_tx, hch, hevm] at het
          split at het
          · injection het with hrec
            subst hrec
            exact ⟨rfl, rfl, rfl⟩
          · exact Except.noConfusion het
  | Declare d =>
    constructor
    · intro sig hsig
      simp only [signature_of, Option.some.injEq] at hsig
      subst hsig
      constructor
      · intro hlt
        cases hch : node.get_class_hash_at (.Tag .Latest) d.sender_address with
        | error e => exact ⟨e, by simp [starknet_tx_into_eth_tx, hch]⟩
        | ok ch =>
          cases h0 : d.signature[0]? with
          | none =>
            exact ⟨.OtherError "Kakarot Core: Missing expected signature field element",
              by simp [starknet_tx_into_eth_tx, hch, h0, felt_option_to_u256]⟩
          | some x0 =>
            cases h1 : d.signature[1]? with
            | none =>
              exact ⟨.OtherError "Kakarot Core: Missing expected signature field element",
                by simp [starknet_tx_into_eth_tx, hch, h0, h1, felt_option_to_u256]⟩
            | some x1 =>
              have h2 : d.signature[2]? = none := by
                rw [List.getElem?_eq_none_iff]; omega
              exact ⟨.OtherError "Kakarot Core: Missing expected signature field element",
                by simp [starknet_tx_into_eth_tx, hch, h0, h1, h2, felt_option_to_u256]⟩
      · intro et het
        cases hch : node.get_class_hash_at (.Tag .Latest) d.sender_address with
        | error e => simp [starknet_tx_into_eth_tx, hch] at het
        | ok ch =>
          cases h0 : d.signature[0]? with
          | none => simp [starknet_tx_into_eth_tx, hch, h0, felt_option_to_u256] at het
          | some x0 =>
            cases h1 : d.signature[1]? with
            | none => simp [starknet_tx_into_eth_tx, hch, h0, h1, felt_option_to_u256] at het
            | some x1 =>
              cases h2 : d.signature[2]? with
              | none =>
                simp [starknet_tx_into_eth_tx, hch, h0, h1, h2, felt_option_to_u256] at het
              | some x2 =>
                simp only [starknet_tx_into_eth_tx, List.get?_eq_getElem?, hch, h0, h1, h2,
                  felt_option_to_u256] at het
                split at het
                · injection het with hrec
                  subst hrec
                  exact ⟨x0, x1, x2, rfl, rfl, rfl, rfl, rfl, rfl⟩
                · exact Except.noConfusion het
    · intro hnone
      simp [signature_of] at hnone
  | Deploy d =>
    constructor
    · intro sig hsig
      simp [signature_of] at hsig
    · intro _ et het
      simp only [starknet_tx_into_eth_tx] at het
      split at het
      · injection het with hrec
        subst hrec
        exact ⟨rfl, rfl, rfl⟩
      · exact Except.noConfusion het
  | DeployAccount d =>
    constructor
    · intro sig hsig
      simp only [signature_of, Option.some.injEq] at hsig
      subst hsig
      constructor
      · intro hlt
        cases h0 : d.signature[0]? with
        | none =>
          exact ⟨.OtherError "Kakarot Core: Missing expected signature field element",
            by simp [starknet_tx_into_eth_tx, h0, felt_option_to_u256]⟩
        | some x0 =>
          cases h1 : d.signature[1]? with
          | none =>
            exact ⟨.OtherError "Kakarot Core: Missing expected signature field element",
              by simp [starknet_tx_into_eth_tx, h0, h1, felt_option_to_u256]⟩
          | some x1 =>
            have h2 : d.signature[2]? = none := by
              rw [List.getElem?_eq_none_iff]; omega
            exact ⟨.OtherError "Kakarot Core: Missing expected signature field element",
              by simp [starknet_tx_into_eth_tx, h0, h1, h2, felt_option_to_u256]⟩
      · intro et het
        cases h0 : d.signature[0]? with
        | none => simp [starknet_tx_into_eth_tx, h0, felt_option_to_u256] at het
        | some x0 =>
          cases h1 : d.signature[1]? with
          | none => simp [starknet_tx_into_eth_tx, h0, h1, felt_option_to_u256] at het
          | some x1 =>
            cases h2 : d.signature[2]? with
            | none => simp [starknet_tx_into_eth_tx, h0, h1, h2, felt_option_to_u256] at het
            | some x2 =>
              simp only [starknet_tx_into_eth_tx, List.get?_eq_getElem?, h0, h1, h2,
                felt_option_to_u256] at het
              split at het
              · injection het with hrec
                subst hrec
                exact ⟨x0, x1, x2, rfl, rfl, rfl, rfl, rfl, rfl⟩
              · exact Except.noConfusion het
    · intro hnone
      simp [signature_of] at hnone

/-- An Invoke V0 transaction with an empty signature, for the C8 witness. -/
def invokeV0NoSig : InvokeTransactionV0 where
  transaction_hash := feltOfNat 3
  max_fee := feltOfNat 0
  signature := []
  nonce := feltOfNat 0
  contract_address := feltOfNat 4
  entry_point_selector := feltOfNat 0
  calldata := []

/-- C8 witness: an Invoke V0 transaction with an empty signature makes the
translator fail rather than zero-fill. -/
theorem signature_extraction_amended_witness :
    ∃ e, starknet_tx_into_eth_tx nodeDown (.Invoke (.V0 invokeV0NoSig)) none none =
      .error e :=
  (((signature_extraction_amended nodeDown (.Invoke (.V0 invokeV0NoSig)) none none).1
      invokeV0NoSig.signature rfl).1) (by decide)

/-- C9: receipt status mapping.  Whenever `get_transaction_receipt` processes
an Invoke, Deploy or DeployAccount receipt and returns a receipt record, its
status code maps Pending and Rejected to 0 and AcceptedOnL1 and AcceptedOnL2
to 1. -/
theorem receipt_status_mapping (node : Node) (hash : Hash256) (hf : FieldElement)
    (rc : StarknetTransactionReceipt) (th : FieldElement)
    (st : StarknetTransactionStatus) (bhf : FieldElement) (bnr : Nat)
    (r : EthTransactionReceipt)
    (hhash : hash_to_field_element hash = .ok hf)
    (hrc : node.get_transaction_receipt_r hf = .ok (.Receipt rc))
    (hfields : receipt_common_fields rc = some (th, st, bhf, bnr))
    (hres : get_transaction_receipt node hash = .ok (some r)) :
    r.status_code = some (match st with
      | .Pending => 0
      | .AcceptedOnL1 => 1
      | .AcceptedOnL2 => 1
      | .Rejected => 0) := by
  simp only [get_transaction_receipt, hhash, hrc, hfields] at hres
  cases hstx : node.get_transaction_by_hash hf with
  | error e =>
    simp only [hstx] at hres
    exact Except.noConfusion hres
  | ok stx =>
    cases stx with
    | Invoke itx =>
      cases itx with
      | V0 v0 =>
        cases htr : starknet_tx_into_eth_tx node (.Invoke (.V0 v0)) none none with
        | error e => simp [hstx, htr] at hres
        | ok tx =>
          simp only [hstx, htr, Except.ok.injEq, Option.some.injEq] at hres
          subst hres
          cases st <;> rfl
      | V1 v1 =>
        cases htr : starknet_tx_into_eth_tx node (.Invoke (.V1 v1)) none none with
        | error e => simp [hstx, htr] at hres
        | ok tx =>
          simp only [hstx, htr, Except.ok.injEq, Option.some.injEq] at hres
          subst hres
          cases st <;> rfl
    | L1Handler l => simp [hstx] at hres
    | Declare d => simp [hstx] at hres
    | Deploy d =>
      cases htr : starknet_tx_into_eth_tx node (.Deploy d) none none with
      | error e => simp [hstx, htr] at hres
      | ok tx =>
        simp only [hstx, htr, Except.ok.injEq, Option.some.injEq] at hres
        subst hres
        cases st <;> rfl
    | DeployAccount d =>
      cases htr : starknet_tx_into_eth_tx node (.DeployAccount d) none none with
      | error e => simp [hstx, htr] at hres
      | ok tx =>
        simp only [hstx, htr, Except.ok.injEq, Option.some.injEq] at hres
        subst hres
        cases st <;> rfl

/-- The receipt the C9 witness node serves: an Invoke receipt accepted on L2. -/
def invokeReceiptL2 : InvokeTransactionReceipt where
  transaction_hash := feltOfNat 9
  actual_fee := feltOfNat 0
  status := .AcceptedOnL2
  block_hash := feltOfNat 11
  block_number := 12

/-- A remote node serving the L2-accepted Invoke receipt and a gate-passing
Deploy transaction for the receipt's transaction lookup. -/
def nodeReceiptL2 : Node where
  call := fun _ _ => .error (.RequestError "connection refused")
  get_class_hash_at := fun _ _ => .error (.RequestError "connection refused")
  get_transaction_receipt_r := fun _ => .ok (.Receipt (.Invoke invokeReceiptL2))
  get_transaction_by_hash := fun _ => .ok (.Deploy deployTxKakarot)
  get_block_with_txs := fun _ => .error (.RequestError "connection refused")
  get_block_with_tx_hashes := fun _ => .error (.RequestError "connection refused")

/-- The receipt record the witness node's lookup produces. -/
def receiptL2Result : EthTransactionReceipt :=
  match get_transaction_receipt nodeReceiptL2 (natToBytesBE 32 5) with
  | .ok (some r) => r
  | _ => create_default_transaction_receipt

/-- C9 witness: the concrete L2-accepted Invoke receipt maps to status code 1. -/
theorem receipt_status_mapping_witness : receiptL2Result.status_code = some 1 :=
  receipt_status_mapping nodeReceiptL2 (natToBytesBE 32 5) (feltOfNat 5)
    (.Invoke invokeReceiptL2) (feltOfNat 9) .AcceptedOnL2 (feltOfNat 11) 12
    receiptL2Result rfl rfl rfl rfl
